import Mathlib

/-
Verification of the text-sanitization engine in src/main.py
(dso-text-scrubber).

The engine (`sanitize_text`) walks an ordered list of regular-expression
pattern strings; each pattern is compiled with `re.compile` (malformed
specs are logged and skipped), and every match of the compiled pattern in
the current working text is rewritten according to the replacement
strategy: "remove" (empty string), "fake" (a value from the `faker`
library keyed by the literal pattern string), or "custom" (a fixed
replacement string, skipped with a diagnostic when absent or empty).

The embedding below models the slice of Python's `re` module that the
program exercises:
  * a regex AST (`Regex`) with character classes, word boundaries,
    concatenation, alternation and greedy star (bounded repetition and
    `+`/`?` are expanded into these),
  * a backtracking matcher (`matchC`) in continuation-passing style with
    Python's priority order (alternation prefers the left branch,
    repetition is greedy), fueled for totality,
  * the `re.sub` left-to-right scan (`reSubAux`): at each position try a
    match; on a non-empty match emit the replacement and resume after it,
    on an empty match emit the replacement and advance one character, and
    otherwise copy one character,
  * a parser (`re_compile`) for the regex syntax the program's pattern
    strings use (literals, escapes, classes with ranges, `+ * ?`,
    brace-bounded repetition, alternation, groups); it returns `none` on
    malformed syntax such as an unterminated class, mirroring `re.error`.
Word characters are modelled over the ASCII range (letters, digits,
underscore), which coincides with Python on the ASCII inputs considered.

The `faker` library is third-party code that is not part of this
repository; it is modelled abstractly by a `Faker` record of the fields
`generate_fake_data` reads, plus a concrete seed-indexed instance
modelled from the spec for shape claims.
-/

/-- Word character in the sense of the regex `\b` and `\w` (ASCII). -/
def isWordChar (c : Char) : Bool :=
  c.isAlpha || c.isDigit || c = '_'

/-- One item of a character class: a single character or a range. -/
inductive CItem where
  | single : Char → CItem
  | range : Char → Char → CItem
deriving DecidableEq, Repr

/-- Does a character fall under one class item? -/
def memCItem (c : Char) : CItem → Bool
  | CItem.single d => c = d
  | CItem.range lo hi => lo ≤ c && c ≤ hi

/-- Regular-expression AST for the subset of Python `re` used here. -/
inductive Regex where
  | eps : Regex
  | cls : Bool → List CItem → Regex
  | wordB : Regex
  | cat : Regex → Regex → Regex
  | alt : Regex → Regex → Regex
  | star : Regex → Regex
deriving DecidableEq, Repr

/-- Membership in a (possibly negated) character class. -/
def memClass (neg : Bool) (items : List CItem) (c : Char) : Bool :=
  if neg then !(items.any (memCItem c)) else items.any (memCItem c)

/-- Node count of a regex, used to size the matcher's fuel. -/
def regexSize : Regex → Nat
  | Regex.eps => 1
  | Regex.cls _ _ => 1
  | Regex.wordB => 1
  | Regex.cat r1 r2 => regexSize r1 + regexSize r2 + 1
  | Regex.alt r1 r2 => regexSize r1 + regexSize r2 + 1
  | Regex.star r => regexSize r + 1

/-- Backtracking matcher in continuation-passing style, mirroring the
priority order of Python's engine: alternation tries the left branch
first, `star` is greedy (it first tries to consume one more non-empty
iteration, falling back to the continuation).  `prev` records whether the
character immediately before the current position is a word character
(for `\b`).  The continuation receives the updated flag and the remaining
suffix; the overall result is the suffix left after the first successful
match in priority order, or `none`.  Fuel bounds the call depth and is
chosen large enough (see `matchFuel`) never to run out. -/
def matchC : Nat → Regex → Bool → List Char →
    (Bool → List Char → Option (List Char)) → Option (List Char)
  | 0, _, _, _, _ => none
  | _ + 1, Regex.eps, prev, s, k => k prev s
  | _ + 1, Regex.wordB, prev, s, k =>
      let nxt := match s with
        | [] => false
        | c :: _ => isWordChar c
      if prev != nxt then k prev s else none
  | _ + 1, Regex.cls neg items, _, s, k =>
      match s with
      | [] => none
      | c :: rest => if memClass neg items c then k (isWordChar c) rest else none
  | fuel + 1, Regex.cat r1 r2, prev, s, k =>
      matchC fuel r1 prev s (fun p t => matchC fuel r2 p t k)
  | fuel + 1, Regex.alt r1 r2, prev, s, k =>
      (matchC fuel r1 prev s k).orElse (fun _ => matchC fuel r2 prev s k)
  | fuel + 1, Regex.star r, prev, s, k =>
      (matchC fuel r prev s (fun p t =>
        if t.length < s.length then matchC fuel (Regex.star r) p t k else none)).orElse
      (fun _ => k prev s)

/-- Fuel that is ample for `matchC` on regex `r` over suffix `s`. -/
def matchFuel (r : Regex) (s : List Char) : Nat :=
  (regexSize r + 2) * (s.length + 2)

/-- Length of the first match of `r` at the start of `s` (Python match
attempt at one position), or `none` when `r` does not match here. -/
def firstMatchLen (r : Regex) (prev : Bool) (s : List Char) : Option Nat :=
  (matchC (matchFuel r s) r prev s (fun _ t => some t)).map
    (fun t => s.length - t.length)

/-- Word-character flag to carry past a consumed span. -/
def nextPrev (prev : Bool) (consumed : List Char) : Bool :=
  match consumed.getLast? with
  | some c => isWordChar c
  | none => prev

/-- The `re.sub` scan: at each position try a match of `r`; replace a
non-empty match with `repl` and resume after it; replace an empty match
and advance one character; copy one character when there is no match.
Fuel `s.length + 1` suffices since every step shortens the suffix. -/
def reSubAux : Nat → Regex → List Char → Bool → List Char → List Char
  | 0, _, _, _, s => s
  | fuel + 1, r, repl, prev, s =>
    match firstMatchLen r prev s with
    | none =>
      match s with
      | [] => []
      | c :: rest => c :: reSubAux fuel r repl (isWordChar c) rest
    | some n =>
      if n = 0 then
        match s with
        | [] => repl
        | c :: rest => repl ++ c :: reSubAux fuel r repl (isWordChar c) rest
      else
        repl ++ reSubAux fuel r repl (nextPrev prev (s.take n)) (s.drop n)

/-- `re.sub(pattern, repl, s)` with a constant replacement string, as the
program uses it (the replacement callable in src/main.py returns a fixed
string, so no escape processing applies to it). -/
def reSub (r : Regex) (repl : List Char) (s : List Char) : List Char :=
  reSubAux (s.length + 1) r repl false s

/-- Prepend a character to the leading unmatched gap of a piece
decomposition (or to the final gap when there are no matches). -/
def consGap (c : Char) (pr : List (List Char × List Char) × List Char) :
    List (List Char × List Char) × List Char :=
  match pr with
  | ([], fin) => ([], c :: fin)
  | ((g, m) :: ps, fin) => ((c :: g, m) :: ps, fin)

/-- Decomposition of a text under the `re.sub` scan of `reSubAux`: a list
of (unmatched gap, matched span) pairs in scan order, plus the final
unmatched gap.  It follows exactly the same recursion and match decisions
as `reSubAux`. -/
def subPiecesAux : Nat → Regex → Bool → List Char →
    List (List Char × List Char) × List Char
  | 0, _, _, s => ([], s)
  | fuel + 1, r, prev, s =>
    match firstMatchLen r prev s with
    | none =>
      match s with
      | [] => ([], [])
      | c :: rest => consGap c (subPiecesAux fuel r (isWordChar c) rest)
    | some n =>
      if n = 0 then
        match s with
        | [] => ([([], [])], [])
        | c :: rest =>
          let pr := consGap c (subPiecesAux fuel r (isWordChar c) rest)
          (([], []) :: pr.1, pr.2)
      else
        let pr := subPiecesAux fuel r (nextPrev prev (s.take n)) (s.drop n)
        (([], s.take n) :: pr.1, pr.2)

/-- Reassemble the original text from a piece decomposition. -/
def piecesText (pr : List (List Char × List Char) × List Char) : List Char :=
  pr.1.foldr (fun p acc => p.1 ++ p.2 ++ acc) pr.2

/-- Reassemble the substituted text from a piece decomposition: every
matched span is replaced by `repl`, every gap is kept verbatim. -/
def piecesRepl (repl : List Char)
    (pr : List (List Char × List Char) × List Char) : List Char :=
  pr.1.foldr (fun p acc => p.1 ++ repl ++ acc) pr.2

/-- No match of `r` anywhere in `s` under the `re.sub` scan. -/
def reNoMatch (r : Regex) (s : String) : Bool :=
  (subPiecesAux (s.data.length + 1) r false s.data).1.isEmpty

/-- Shape check for a synthetic email: exactly one at-sign, and at least
one dot somewhere after it. -/
def emailShapeOk (s : String) : Bool :=
  (s.data.count '@' = 1) &&
    ((s.data.dropWhile (fun c => c != '@')).drop 1).contains '.'

/-- Shape check for a synthetic payment-card value: digits with optional
space or dash separators, with a plausible count of digits. -/
def cardShapeOk (s : String) : Bool :=
  let digits := s.data.filter (fun c => c.isDigit)
  s.data.all (fun c => c.isDigit || c = ' ' || c = '-') &&
    (12 ≤ digits.length) && (digits.length ≤ 19)

/-- Class items for the escape `\d`. -/
def digitItems : List CItem := [CItem.range '0' '9']

/-- Class items for the escape `\s` (ASCII whitespace as in Python). -/
def spaceItems : List CItem :=
  [CItem.single ' ', CItem.single '\t', CItem.single '\n',
   CItem.single '\x0b', CItem.single '\x0c', CItem.single '\r']

/-- Class items for the escape `\w` (ASCII word characters). -/
def wordItems : List CItem :=
  [CItem.range 'A' 'Z', CItem.range 'a' 'z', CItem.range '0' '9',
   CItem.single '_']

/-- Meaning of a backslash escape outside a character class.  Unknown
alphanumeric escapes are errors in Python (`re.error`), escaped
punctuation is the literal character. -/
def escAtom (c : Char) : Option Regex :=
  if c = 'd' then some (Regex.cls false digitItems)
  else if c = 'D' then some (Regex.cls true digitItems)
  else if c = 's' then some (Regex.cls false spaceItems)
  else if c = 'S' then some (Regex.cls true spaceItems)
  else if c = 'w' then some (Regex.cls false wordItems)
  else if c = 'W' then some (Regex.cls true wordItems)
  else if c = 'b' then some Regex.wordB
  else if c = 'n' then some (Regex.cls false [CItem.single '\n'])
  else if c = 't' then some (Regex.cls false [CItem.single '\t'])
  else if c = 'r' then some (Regex.cls false [CItem.single '\r'])
  else if c.isAlpha || c.isDigit then none
  else some (Regex.cls false [CItem.single c])

/-- Meaning of a backslash escape inside a character class. -/
def escClassItems (c : Char) : Option (List CItem) :=
  if c = 'd' then some digitItems
  else if c = 's' then some spaceItems
  else if c = 'w' then some wordItems
  else if c = 'n' then some [CItem.single '\n']
  else if c = 't' then some [CItem.single '\t']
  else if c = 'r' then some [CItem.single '\r']
  else if c.isAlpha || c.isDigit then none
  else some [CItem.single c]

/-- Parse the body of a character class up to the closing bracket.
Returns the items and the rest of the input, or `none` when the class is
unterminated (Python's `re.error`) or uses a bad range. -/
def parseClassBody : Nat → List Char → Option (List CItem × List Char)
  | 0, _ => none
  | fuel + 1, cs =>
    match cs with
    | [] => none
    | ']' :: rest => some ([], rest)
    | '\\' :: e :: rest =>
      match escClassItems e with
      | none => none
      | some its =>
        match parseClassBody fuel rest with
        | none => none
        | some (more, rem) => some (its ++ more, rem)
    | c :: '-' :: d :: rest =>
      if d = ']' then
        some ([CItem.single c, CItem.single '-'], rest)
      else if d = '\\' then none
      else if c ≤ d then
        match parseClassBody fuel rest with
        | none => none
        | some (more, rem) => some (CItem.range c d :: more, rem)
      else none
    | c :: rest =>
      match parseClassBody fuel rest with
      | none => none
      | some (more, rem) => some (CItem.single c :: more, rem)

/-- Parse a character class after the opening bracket: optional negation,
then items, where a bracket appearing first is a literal item (Python
semantics for a class such as one containing only the closing bracket). -/
def parseClass (fuel : Nat) (cs : List Char) : Option (Regex × List Char) :=
  let negAndRest : Bool × List Char :=
    match cs with
    | '^' :: t => (true, t)
    | _ => (false, cs)
  let neg := negAndRest.1
  match negAndRest.2 with
  | ']' :: t =>
    match parseClassBody fuel t with
    | none => none
    | some (its, rem) => some (Regex.cls neg (CItem.single ']' :: its), rem)
  | other =>
    match parseClassBody fuel other with
    | none => none
    | some (its, rem) => some (Regex.cls neg its, rem)

/-- Exactly `n` copies of `r`, concatenated. -/
def repExact : Nat → Regex → Regex
  | 0, _ => Regex.eps
  | n + 1, r => Regex.cat r (repExact n r)

/-- At most `n` copies of `r`, greedily (presence is preferred, like
Python's greedy bounded repetition). -/
def repUpTo : Nat → Regex → Regex
  | 0, _ => Regex.eps
  | n + 1, r => Regex.alt (Regex.cat r (repUpTo n r)) Regex.eps

/-- Digits at the front of the input, with the rest. -/
def takeDigits (cs : List Char) : List Char × List Char :=
  (cs.takeWhile (fun c => c.isDigit), cs.dropWhile (fun c => c.isDigit))

/-- Numeric value of a digit string. -/
def digitsVal (ds : List Char) : Nat :=
  ds.foldl (fun acc c => acc * 10 + (c.toNat - '0'.toNat)) 0

/-- Parse a brace quantifier body (after the opening brace) applied to
`r`.  Returns `none` when the braces do not form a quantifier, in which
case Python treats the brace as a literal (handled by the caller). -/
def parseRepeat (r : Regex) (cs : List Char) : Option (Regex × List Char) :=
  let p1 := takeDigits cs
  match p1.1 with
  | [] => none
  | _ =>
    let m := digitsVal p1.1
    match p1.2 with
    | '\x7d' :: rest => some (repExact m r, rest)
    | ',' :: afterComma =>
      let p2 := takeDigits afterComma
      match p2.2 with
      | '\x7d' :: rest =>
        match p2.1 with
        | [] => some (Regex.cat (repExact m r) (Regex.star r), rest)
        | _ =>
          let n := digitsVal p2.1
          if m ≤ n then some (Regex.cat (repExact m r) (repUpTo (n - m) r), rest)
          else none
      | _ => none
    | _ => none

/-- Apply a postfix quantifier to a parsed atom when one follows.  A
brace that does not form a valid quantifier is left in the input to be
read as a literal, as Python does. -/
def parsePostfix (r : Regex) (cs : List Char) : Regex × List Char :=
  match cs with
  | '*' :: rest => (Regex.star r, rest)
  | '+' :: rest => (Regex.cat r (Regex.star r), rest)
  | '?' :: rest => (Regex.alt r Regex.eps, rest)
  | '\x7b' :: rest =>
    match parseRepeat r rest with
    | some (r2, rem) => (r2, rem)
    | none => (r, cs)
  | _ => (r, cs)

mutual

/-- Parse an alternation (sequences separated by vertical bars). -/
def parseAlt : Nat → List Char → Option (Regex × List Char)
  | 0, _ => none
  | fuel + 1, cs =>
    match parseSeq fuel cs with
    | none => none
    | some (r, rest) =>
      match rest with
      | '|' :: more =>
        match parseAlt fuel more with
        | none => none
        | some (r2, rem) => some (Regex.alt r r2, rem)
      | _ => some (r, rest)

/-- Parse a sequence of quantified atoms, stopping at the end of input,
a closing parenthesis or a vertical bar. -/
def parseSeq : Nat → List Char → Option (Regex × List Char)
  | 0, _ => none
  | fuel + 1, cs =>
    match cs with
    | [] => some (Regex.eps, [])
    | ')' :: _ => some (Regex.eps, cs)
    | '|' :: _ => some (Regex.eps, cs)
    | _ =>
      match parseAtom fuel cs with
      | none => none
      | some (a, rest1) =>
        let post := parsePostfix a rest1
        match parseSeq fuel post.2 with
        | none => none
        | some (tail, rem) => some (Regex.cat post.1 tail, rem)

/-- Parse one atom: escape, class, group, dot, or literal character.
Dangling quantifiers and the anchors and extension syntax the program
never uses are rejected (`none`). -/
def parseAtom : Nat → List Char → Option (Regex × List Char)
  | 0, _ => none
  | fuel + 1, cs =>
    match cs with
    | [] => none
    | '\\' :: e :: rest =>
      match escAtom e with
      | none => none
      | some r => some (r, rest)
    | '\\' :: [] => none
    | '[' :: rest => parseClass fuel rest
    | '(' :: '?' :: _ => none
    | '(' :: rest =>
      match parseAlt fuel rest with
      | none => none
      | some (r, rem) =>
        match rem with
        | ')' :: rem2 => some (r, rem2)
        | _ => none
    | '.' :: rest => some (Regex.cls true [CItem.single '\n'], rest)
    | '*' :: _ => none
    | '+' :: _ => none
    | '?' :: _ => none
    | '^' :: _ => none
    | '$' :: _ => none
    | c :: rest => some (Regex.cls false [CItem.single c], rest)

end

/-- `re.compile` on the modelled subset: `some` of the parsed regex, or
`none` for a malformed pattern (Python raises `re.error`, which
src/main.py catches and turns into a skip). -/
def re_compile (spec : String) : Option Regex :=
  match parseAlt ((spec.length + 2) * 8) spec.data with
  | some (r, []) => some r
  | _ => none

/-- The fields of a `faker.Faker` instance that `generate_fake_data`
reads.  The library draws fresh random values; a `Faker` value stands for
one draw of each generator, so quantifying over `Faker` quantifies over
the library's possible outputs. -/
structure Faker where
  email : String
  phone_number : String
  date : String
  name : String
  address : String
  credit_card_full : String
  word : String
deriving DecidableEq, Repr

/-- src/main.py `generate_fake_data`: dispatch on the `data_type` string
over the six recognized category labels, falling back to a generic word. -/
def generate_fake_data (fake : Faker) (data_type : String) : String :=
  if data_type = "email" then fake.email
  else if data_type = "phone" then fake.phone_number
  else if data_type = "date" then fake.date
  else if data_type = "name" then fake.name
  else if data_type = "address" then fake.address
  else if data_type = "credit_card" then fake.credit_card_full
  else fake.word

/-- Pick one of three strings by a seed (helper for the modelled faker). -/
def pick3 (a b c : String) (seed : Nat) : String :=
  match seed % 3 with
  | 0 => a
  | 1 => b
  | _ => c

/-- Modelled from the spec: the `faker` library's generators (the
`Faker()` instance constructed inside `generate_fake_data`) are
third-party code that is not under src/.  Following the spec's mapping —
email→synthetic email address, phone→synthetic phone number,
date→synthetic calendar date, name→synthetic full personal name,
address→synthetic postal address, credit_card→synthetic full payment-card
number string, fallback→generic word token — each generator is modelled
as a seed-indexed choice from a small pool of plausible values. -/
def fakerOfSeed (seed : Nat) : Faker where
  email := pick3 "alice.smith@example.org" "bob@mail.example.com"
    "carol_j@web.example.net" seed
  phone_number := pick3 "555-201-3344" "555-867-5309" "555-010-2288" seed
  date := pick3 "1987-04-12" "2003-11-30" "1975-06-01" seed
  name := pick3 "Alice Smith" "Robert Jones" "Carol Johnson" seed
  address := pick3 "12 Oak Street, Springfield" "98 Elm Avenue, Rivertown"
    "7 Pine Road, Lakeside" seed
  credit_card_full := pick3 "4532015112830366" "340000000000009"
    "6011000990139424" seed
  word := pick3 "meadow" "lantern" "harbor" seed

/-- A fixed modelled faker draw, for concrete instances of claims whose
outcome does not depend on the draw. -/
def defaultFaker : Faker := fakerOfSeed 0

/-- One iteration of the pattern loop in src/main.py `sanitize_text`
(lines 90-108): compile the spec, skipping it when compilation fails;
then dispatch on the replacement type.  `remove` substitutes the empty
string, `fake` substitutes `generate_fake_data` keyed by the literal
pattern string, `custom` substitutes the configured string unless it is
absent or empty (Python's falsiness test), and any other type leaves the
text unchanged (only an error is logged).  `apply_regex_replacement`'s
try/except cannot fire here: the modelled substitution is total, and its
except branch returns the text unchanged anyway. -/
def sanitizeStep (fake : Faker) (sanitized_text : String) (pattern_str : String)
    (replacement_type : String) (custom_replacement : Option String) : String :=
  match re_compile pattern_str with
  | none => sanitized_text
  | some pat =>
    if replacement_type = "remove" then
      String.mk (reSub pat [] sanitized_text.data)
    else if replacement_type = "fake" then
      String.mk (reSub pat (generate_fake_data fake pattern_str).data
        sanitized_text.data)
    else if replacement_type = "custom" then
      match custom_replacement with
      | none => sanitized_text
      | some c =>
        if c = "" then sanitized_text
        else String.mk (reSub pat c.data sanitized_text.data)
    else sanitized_text

/-- src/main.py `sanitize_text` (lines 81-109): return the text unchanged
when no patterns are given (a logged warning, not an error); otherwise
fold the per-pattern step over the pattern list in order, each pattern
seeing the text as rewritten by all earlier patterns. -/
def sanitize_text (fake : Faker) (text : String) (patterns : List String)
    (replacement_type : String) (custom_replacement : Option String) : String :=
  if patterns.isEmpty then text
  else patterns.foldl
    (fun t p => sanitizeStep fake t p replacement_type custom_replacement) text

/-- Unfolding of `piecesText` on an empty piece list. -/
@[simp]
theorem piecesText_nil (fin : List Char) : piecesText ([], fin) = fin := rfl

/-- Unfolding of `piecesText` on a cons. -/
@[simp]
theorem piecesText_cons (p : List Char × List Char)
    (ps : List (List Char × List Char)) (fin : List Char) :
    piecesText (p :: ps, fin) = p.1 ++ p.2 ++ piecesText (ps, fin) := rfl

/-- Unfolding of `piecesRepl` on an empty piece list. -/
@[simp]
theorem piecesRepl_nil (repl fin : List Char) : piecesRepl repl ([], fin) = fin := rfl

/-- Unfolding of `piecesRepl` on a cons. -/
@[simp]
theorem piecesRepl_cons (repl : List Char) (p : List Char × List Char)
    (ps : List (List Char × List Char)) (fin : List Char) :
    piecesRepl repl (p :: ps, fin) = p.1 ++ repl ++ piecesRepl repl (ps, fin) := rfl

/-- `consGap` prepends the character to the reassembled original text. -/
theorem piecesText_consGap (c : Char)
    (pr : List (List Char × List Char) × List Char) :
    piecesText (consGap c pr) = c :: piecesText pr := by
  obtain ⟨ps, fin⟩ := pr
  cases ps with
  | nil => rfl
  | cons hd tl =>
    obtain ⟨g, m⟩ := hd
    simp [consGap]

/-- `consGap` prepends the character to the reassembled substitution. -/
theorem piecesRepl_consGap (repl : List Char) (c : Char)
    (pr : List (List Char × List Char) × List Char) :
    piecesRepl repl (consGap c pr) = c :: piecesRepl repl pr := by
  obtain ⟨ps, fin⟩ := pr
  cases ps with
  | nil => rfl
  | cons hd tl =>
    obtain ⟨g, m⟩ := hd
    simp [consGap]

/-- One-step unfolding of `subPiecesAux` at positive fuel. -/
theorem subPiecesAux_succ (fuel : Nat) (r : Regex) (prev : Bool) (s : List Char) :
    subPiecesAux (fuel + 1) r prev s =
      match firstMatchLen r prev s with
      | none =>
        match s with
        | [] => ([], [])
        | c :: rest => consGap c (subPiecesAux fuel r (isWordChar c) rest)
      | some n =>
        if n = 0 then
          match s with
          | [] => ([([], [])], [])
          | c :: rest =>
            let pr := consGap c (subPiecesAux fuel r (isWordChar c) rest)
            (([], []) :: pr.1, pr.2)
        else
          let pr := subPiecesAux fuel r (nextPrev prev (s.take n)) (s.drop n)
          (([], s.take n) :: pr.1, pr.2) := rfl

/-- One-step unfolding of `reSubAux` at positive fuel. -/
theorem reSubAux_succ (fuel : Nat) (r : Regex) (repl : List Char) (prev : Bool)
    (s : List Char) :
    reSubAux (fuel + 1) r repl prev s =
      match firstMatchLen r prev s with
      | none =>
        match s with
        | [] => []
        | c :: rest => c :: reSubAux fuel r repl (isWordChar c) rest
      | some n =>
        if n = 0 then
          match s with
          | [] => repl
          | c :: rest => repl ++ c :: reSubAux fuel r repl (isWordChar c) rest
        else
          repl ++ reSubAux fuel r repl (nextPrev prev (s.take n)) (s.drop n) := rfl

/-- The piece decomposition reassembles to the original text. -/
theorem piecesText_subPieces (fuel : Nat) (r : Regex) :
    ∀ (prev : Bool) (s : List Char),
      piecesText (subPiecesAux fuel r prev s) = s := by
  induction fuel with
  | zero => intro prev s; rfl
  | succ fuel ih =>
    intro prev s
    rw [subPiecesAux_succ]
    cases hm : firstMatchLen r prev s with
    | none =>
      cases s with
      | nil => rfl
      | cons c rest => simp [piecesText_consGap, ih]
    | some n =>
      by_cases hn : n = 0
      · subst hn
        cases s with
        | nil => rfl
        | cons c rest =>
          simp only [if_pos rfl, piecesText_cons]
          simp [piecesText_consGap, ih]
      · simp only [if_neg hn, piecesText_cons]
        simp [ih, List.take_append_drop]

/-- The `re.sub` scan equals the substituted reassembly of the piece
decomposition: each matched span is replaced by `repl` verbatim and every
gap character is copied. -/
theorem reSubAux_eq_piecesRepl (fuel : Nat) (r : Regex) (repl : List Char) :
    ∀ (prev : Bool) (s : List Char),
      reSubAux fuel r repl prev s = piecesRepl repl (subPiecesAux fuel r prev s) := by
  induction fuel with
  | zero => intro prev s; rfl
  | succ fuel ih =>
    intro prev s
    rw [subPiecesAux_succ, reSubAux_succ]
    cases hm : firstMatchLen r prev s with
    | none =>
      cases s with
      | nil => rfl
      | cons c rest => simp [piecesRepl_consGap, ih]
    | some n =>
      by_cases hn : n = 0
      · subst hn
        cases s with
        | nil => simp
        | cons c rest =>
          simp only [if_pos rfl, piecesRepl_cons]
          simp [piecesRepl_consGap, ih]
      · simp only [if_neg hn, piecesRepl_cons]
        simp [ih]

/-- When the scan finds no match, substitution is the identity. -/
theorem reSubAux_of_no_match (fuel : Nat) (r : Regex) (repl : List Char)
    (prev : Bool) (s : List Char)
    (h : (subPiecesAux fuel r prev s).1 = []) :
    reSubAux fuel r repl prev s = s := by
  have ht := piecesText_subPieces fuel r prev s
  rw [reSubAux_eq_piecesRepl]
  rcases hpr : subPiecesAux fuel r prev s with ⟨ps, fin⟩
  rw [hpr] at h ht
  subst h
  simpa using ht

/-- `sanitize_text` is the fold of the per-pattern step: the early return
for an empty list agrees with the empty fold. -/
theorem sanitize_text_eq_foldl (fake : Faker) (text : String)
    (patterns : List String) (rt : String) (c : Option String) :
    sanitize_text fake text patterns rt c =
      patterns.foldl (fun t p => sanitizeStep fake t p rt c) text := by
  cases patterns <;> simp [sanitize_text]

/-- A spec that fails to compile contributes nothing (the loop's
`continue` on `re.error`). -/
theorem sanitizeStep_of_compile_none (fake : Faker) (t : String) {p : String}
    (h : re_compile p = none) (rt : String) (c : Option String) :
    sanitizeStep fake t p rt c = t := by
  simp [sanitizeStep, h]

/-- With the custom strategy and an absent replacement string the step is
the identity (the loop's `continue` on a falsy `custom_replacement`). -/
theorem sanitizeStep_custom_none (fake : Faker) (t p : String) :
    sanitizeStep fake t p "custom" none = t := by
  cases h : re_compile p <;> simp [sanitizeStep, h]

/-- With the custom strategy and an empty replacement string the step is
the identity (the empty string is falsy in Python). -/
theorem sanitizeStep_custom_empty (fake : Faker) (t p : String) :
    sanitizeStep fake t p "custom" (some "") = t := by
  cases h : re_compile p <;> simp [sanitizeStep, h]

/-- A replacement type outside the three recognized ones makes the step
the identity (the final `else` only logs). -/
theorem sanitizeStep_unknown_type (fake : Faker) (t p : String) {rt : String}
    (h1 : rt ≠ "remove") (h2 : rt ≠ "fake") (h3 : rt ≠ "custom")
    (c : Option String) :
    sanitizeStep fake t p rt c = t := by
  cases h : re_compile p <;> simp [sanitizeStep, h, h1, h2, h3]

/-- The remove step does not read the faker instance. -/
theorem sanitizeStep_remove_faker (f1 f2 : Faker) (t p : String)
    (c : Option String) :
    sanitizeStep f1 t p "remove" c = sanitizeStep f2 t p "remove" c := by
  cases h : re_compile p <;> simp [sanitizeStep, h]

/-- The custom step does not read the faker instance. -/
theorem sanitizeStep_custom_faker (f1 f2 : Faker) (t p : String)
    (c : Option String) :
    sanitizeStep f1 t p "custom" c = sanitizeStep f2 t p "custom" c := by
  cases h : re_compile p <;> simp [sanitizeStep, h]

/-- Folding a function that fixes `b` over any list returns `b`. -/
theorem foldl_fixed {α β : Type} (f : β → α → β) (b : β) :
    ∀ (l : List α), (∀ a ∈ l, f b a = b) → l.foldl f b = b := by
  intro l
  induction l with
  | nil => intro _; rfl
  | cons a l ih =>
    intro h
    have ha := h a (List.mem_cons_self a l)
    simp only [List.foldl_cons, ha]
    exact ih (fun x hx => h x (List.mem_cons_of_mem a hx))

/-- Specs that fail to compile can be dropped from the pattern list
without changing the fold. -/
theorem foldl_filter_compiles (fake : Faker) (rt : String) (c : Option String) :
    ∀ (patterns : List String) (t : String),
      patterns.foldl (fun t p => sanitizeStep fake t p rt c) t =
        (patterns.filter (fun p => (re_compile p).isSome)).foldl
          (fun t p => sanitizeStep fake t p rt c) t := by
  intro patterns
  induction patterns with
  | nil => intro t; rfl
  | cons p ps ih =>
    intro t
    cases h : re_compile p with
    | none =>
      have hf : (re_compile p).isSome = false := by simp [h]
      simp only [List.foldl_cons, List.filter_cons, hf]
      rw [sanitizeStep_of_compile_none fake t h rt c]
      exact ih t
    | some r =>
      have hf : (re_compile p).isSome = true := by simp [h]
      simp only [List.foldl_cons, List.filter_cons, hf]
      exact ih _

set_option maxRecDepth 10000 in
/-- C1: Patterns compose sequentially on the working text.  For the input
"Contact: John Smith, john@x.com", the ordered list of the default
two-capitalized-word name pattern and the default email pattern under the
remove strategy yields exactly "Contact: , "; and in general the result
for a pattern list starting with `p` is the result for the remaining
patterns applied to the text already rewritten by `p`, so each pattern is
matched against the text rewritten by all earlier patterns, not against
the original input. -/
theorem C1_patterns_compose_sequentially :
    (sanitize_text defaultFaker "Contact: John Smith, john@x.com"
      ["\\b[A-Z][a-z]+\\s[A-Z][a-z]+\\b",
       "\\b[A-Za-z0-9._%+-]+@[A-Za-z0-9.-]+\\.[A-Z|a-z]\x7b2,7\x7d"]
      "remove" none = "Contact: , ")
    ∧ (∀ (fake : Faker) (T : String) (p : String) (ps : List String)
        (rt : String) (c : Option String),
        sanitize_text fake T (p :: ps) rt c =
          sanitize_text fake (sanitizeStep fake T p rt c) ps rt c) := by
  constructor
  · decide
  · intro fake T p ps rt c
    cases ps <;> simp [sanitize_text]

/-- C3: A malformed pattern is isolated.  `sanitize_text` never throws (it
is a total function here); dropping every spec that fails to compile from
the pattern list does not change the result, so a malformed spec
contributes no replacements while every well-formed pattern still
applies.  Concretely, the bracket spec fails to compile, and with the
pattern list of that malformed spec and a valid digit pattern under
remove, the digit matches are still removed. -/
theorem C3_malformed_pattern_isolated :
    (∀ (fake : Faker) (T : String) (ps : List String) (rt : String)
      (c : Option String),
      sanitize_text fake T ps rt c =
        sanitize_text fake T (ps.filter (fun p => (re_compile p).isSome)) rt c)
    ∧ re_compile "[" = none
    ∧ sanitize_text defaultFaker "a1b22c" ["[", "\\d+"] "remove" none = "abc" := by
  refine ⟨?_, by decide, by decide⟩
  intro fake T ps rt c
  rw [sanitize_text_eq_foldl, sanitize_text_eq_foldl]
  exact foldl_filter_compiles fake rt c ps T

/-- C4: The empty pattern list is a no-op: for every text, replacement
type and optional custom replacement, `sanitize_text` returns the text
unchanged (the code only logs a warning). -/
theorem C4_empty_patterns_noop (fake : Faker) (T : String) (rt : String)
    (c : Option String) :
    sanitize_text fake T [] rt c = T := rfl

/-- C5: A missing custom replacement is non-fatal and leaves matches in
place: with replacement type custom and the replacement string absent or
empty (both falsy in Python), every pattern's step is skipped, so the
output is the input unchanged and no exception occurs (the function is
total). -/
theorem C5_missing_custom_replacement (fake : Faker) (T : String)
    (ps : List String) :
    sanitize_text fake T ps "custom" none = T
    ∧ sanitize_text fake T ps "custom" (some "") = T := by
  constructor
  · rw [sanitize_text_eq_foldl]
    exact foldl_fixed _ T ps (fun p _ => sanitizeStep_custom_none fake T p)
  · rw [sanitize_text_eq_foldl]
    exact foldl_fixed _ T ps (fun p _ => sanitizeStep_custom_empty fake T p)

/-- C7: Determinism for remove and custom: the output is a function of
the text, the ordered pattern list and the custom replacement alone — in
particular it does not depend on the faker draw, the only source of
randomness in the program. -/
theorem C7_deterministic_remove_custom (f1 f2 : Faker) (T : String)
    (ps : List String) (c : Option String) :
    sanitize_text f1 T ps "remove" c = sanitize_text f2 T ps "remove" c
    ∧ sanitize_text f1 T ps "custom" c = sanitize_text f2 T ps "custom" c := by
  constructor
  · rw [sanitize_text_eq_foldl, sanitize_text_eq_foldl]
    induction ps generalizing T with
    | nil => rfl
    | cons p l ih =>
      simp only [List.foldl_cons]
      rw [sanitizeStep_remove_faker f1 f2 T p c]
      exact ih _
  · rw [sanitize_text_eq_foldl, sanitize_text_eq_foldl]
    induction ps generalizing T with
    | nil => rfl
    | cons p l ih =>
      simp only [List.foldl_cons]
      rw [sanitizeStep_custom_faker f1 f2 T p c]
      exact ih _

/-- C10: An unrecognized replacement type is a silent no-op: for any
replacement type outside remove, fake and custom, every pattern falls
into the final else branch, which only logs, so the text is returned
unchanged and nothing is raised. -/
theorem C10_unknown_replacement_type_noop (fake : Faker) (T : String)
    (ps : List String) (rt : String) (c : Option String)
    (h1 : rt ≠ "remove") (h2 : rt ≠ "fake") (h3 : rt ≠ "custom") :
    sanitize_text fake T ps rt c = T := by
  rw [sanitize_text_eq_foldl]
  exact foldl_fixed _ T ps
    (fun p _ => sanitizeStep_unknown_type fake T p h1 h2 h3 c)

/-- Witness for C10 at a concrete unknown replacement type. -/
theorem C10_unknown_replacement_type_noop_witness :
    (("delete" : String) ≠ "remove" ∧ ("delete" : String) ≠ "fake"
      ∧ ("delete" : String) ≠ "custom")
    ∧ sanitize_text defaultFaker "a1, b2" ["\\d+"] "delete" none = "a1, b2" :=
  ⟨⟨by decide, by decide, by decide⟩,
    C10_unknown_replacement_type_noop defaultFaker "a1, b2" ["\\d+"] "delete"
      none (by decide) (by decide) (by decide)⟩

/-- C2: Custom substitution is literal.  For any text, any pattern that
compiles and matches at least one span, and any non-empty replacement
string R, the output of `sanitize_text` under the custom strategy is the
text's scan decomposition with every matched span replaced by exactly
R (no interpretation of its characters, since the replacement is a
constant) and every unmatched gap kept verbatim in its original order,
as the shared gap lists of the two reassemblies show. -/
theorem C2_custom_substitution_literal (fake : Faker) (T P R : String)
    (r : Regex) (hc : re_compile P = some r)
    (hm : (subPiecesAux (T.data.length + 1) r false T.data).1.isEmpty = false)
    (hR : R ≠ "") :
    T.data = piecesText (subPiecesAux (T.data.length + 1) r false T.data)
    ∧ (sanitize_text fake T [P] "custom" (some R)).data
        = piecesRepl R.data (subPiecesAux (T.data.length + 1) r false T.data) := by
  refine ⟨(piecesText_subPieces _ _ _ _).symm, ?_⟩
  rw [sanitize_text_eq_foldl]
  simp [sanitizeStep, hc, hR, reSub, reSubAux_eq_piecesRepl]

/-- Witness for C2 at the digit pattern on a small text. -/
theorem C2_custom_substitution_literal_witness :
    (re_compile "\\d+" =
      some (Regex.cat (Regex.cat (Regex.cls false [CItem.range '0' '9'])
        (Regex.star (Regex.cls false [CItem.range '0' '9']))) Regex.eps)
    ∧ (subPiecesAux ("a1b2c".data.length + 1)
        (Regex.cat (Regex.cat (Regex.cls false [CItem.range '0' '9'])
          (Regex.star (Regex.cls false [CItem.range '0' '9']))) Regex.eps)
        false "a1b2c".data).1.isEmpty = false
    ∧ ("X" : String) ≠ "")
    ∧ ("a1b2c".data = piecesText (subPiecesAux ("a1b2c".data.length + 1)
        (Regex.cat (Regex.cat (Regex.cls false [CItem.range '0' '9'])
          (Regex.star (Regex.cls false [CItem.range '0' '9']))) Regex.eps)
        false "a1b2c".data)
    ∧ (sanitize_text defaultFaker "a1b2c" ["\\d+"] "custom" (some "X")).data
        = piecesRepl "X".data (subPiecesAux ("a1b2c".data.length + 1)
            (Regex.cat (Regex.cat (Regex.cls false [CItem.range '0' '9'])
              (Regex.star (Regex.cls false [CItem.range '0' '9']))) Regex.eps)
            false "a1b2c".data)) :=
  ⟨⟨by decide, by decide, by decide⟩,
    C2_custom_substitution_literal defaultFaker "a1b2c" "\\d+" "X"
      (Regex.cat (Regex.cat (Regex.cls false [CItem.range '0' '9'])
        (Regex.star (Regex.cls false [CItem.range '0' '9']))) Regex.eps)
      (by decide) (by decide) (by decide)⟩

/-- C6: Under the fake strategy the synthetic category key is the literal
pattern spec string itself, not the matched content: `generate_fake_data`
dispatches on the spec string over the six labels email, phone, date,
name, address, credit_card, and any other spec string — including the
real email regex source text — selects the generic fallback word; and the
engine passes the spec string itself as the key for every match of that
pattern. -/
theorem C6_fake_category_key_is_spec_string (fake : Faker) (s : String) :
    generate_fake_data fake s =
      (if s = "email" then fake.email
       else if s = "phone" then fake.phone_number
       else if s = "date" then fake.date
       else if s = "name" then fake.name
       else if s = "address" then fake.address
       else if s = "credit_card" then fake.credit_card_full
       else fake.word)
    ∧ generate_fake_data fake
        "\\b[A-Za-z0-9._%+-]+@[A-Za-z0-9.-]+\\.[A-Z|a-z]\x7b2,7\x7d" = fake.word
    ∧ (∀ (T : String) (r : Regex) (c : Option String),
        re_compile s = some r →
        sanitize_text fake T [s] "fake" c =
          String.mk (reSub r (generate_fake_data fake s).data T.data)) := by
  refine ⟨rfl, by simp [generate_fake_data], ?_⟩
  intro T r c hc
  rw [sanitize_text_eq_foldl]
  simp [sanitizeStep, hc]

/-- Witness for C6: the spec string "email" compiles to the literal
word regex, and fake-mode sanitization with it substitutes the faker
value keyed by the spec string. -/
theorem C6_fake_category_key_is_spec_string_witness :
    re_compile "email" =
      some (Regex.cat (Regex.cls false [CItem.single 'e'])
        (Regex.cat (Regex.cls false [CItem.single 'm'])
          (Regex.cat (Regex.cls false [CItem.single 'a'])
            (Regex.cat (Regex.cls false [CItem.single 'i'])
              (Regex.cat (Regex.cls false [CItem.single 'l']) Regex.eps)))))
    ∧ sanitize_text defaultFaker "reach me at email ok" ["email"] "fake" none
        = String.mk (reSub
            (Regex.cat (Regex.cls false [CItem.single 'e'])
              (Regex.cat (Regex.cls false [CItem.single 'm'])
                (Regex.cat (Regex.cls false [CItem.single 'a'])
                  (Regex.cat (Regex.cls false [CItem.single 'i'])
                    (Regex.cat (Regex.cls false [CItem.single 'l']) Regex.eps)))))
            (generate_fake_data defaultFaker "email").data
            ("reach me at email ok").data) :=
  ⟨by decide,
    (C6_fake_category_key_is_spec_string defaultFaker "email").2.2
      "reach me at email ok"
      (Regex.cat (Regex.cls false [CItem.single 'e'])
        (Regex.cat (Regex.cls false [CItem.single 'm'])
          (Regex.cat (Regex.cls false [CItem.single 'a'])
            (Regex.cat (Regex.cls false [CItem.single 'i'])
              (Regex.cat (Regex.cls false [CItem.single 'l']) Regex.eps)))))
      none (by decide)⟩

/-- C8: Idempotence under remove: when no pattern of the list has any
match left in the output of one remove pass (the claim's side condition
that matches do not re-trigger after deletion), a second remove pass
returns that output unchanged. -/
theorem C8_remove_idempotent (fake : Faker) (T : String) (P : List String)
    (c : Option String)
    (h : (P.all fun p => (re_compile p).all fun r =>
        reNoMatch r (sanitize_text fake T P "remove" c)) = true) :
    sanitize_text fake (sanitize_text fake T P "remove" c) P "remove" c
      = sanitize_text fake T P "remove" c := by
  set U := sanitize_text fake T P "remove" c with hU
  rw [sanitize_text_eq_foldl]
  apply foldl_fixed
  intro p hp
  have hall := List.all_eq_true.mp h p hp
  cases hc : re_compile p with
  | none => exact sanitizeStep_of_compile_none fake U hc "remove" c
  | some r =>
    rw [hc] at hall
    simp only [Option.all_some] at hall
    rw [reNoMatch, List.isEmpty_iff] at hall
    have hsub : reSub r [] U.data = U.data :=
      reSubAux_of_no_match (U.data.length + 1) r [] false U.data hall
    simp [sanitizeStep, hc, hsub]

/-- Witness for C8: removing digit runs from a text leaves no digit
matches, so a second pass is the identity. -/
theorem C8_remove_idempotent_witness :
    ((["\\d+"].all fun p => (re_compile p).all fun r =>
        reNoMatch r (sanitize_text defaultFaker "a1b22c" ["\\d+"] "remove" none))
      = true)
    ∧ sanitize_text defaultFaker
        (sanitize_text defaultFaker "a1b22c" ["\\d+"] "remove" none)
        ["\\d+"] "remove" none
      = sanitize_text defaultFaker "a1b22c" ["\\d+"] "remove" none :=
  ⟨by decide,
    C8_remove_idempotent defaultFaker "a1b22c" ["\\d+"] none (by decide)⟩

/-- C9: Shape of synthetic values from the spec-modelled faker: every
email the generator returns contains exactly one at-sign with at least
one dot after it, and every credit_card value consists of digits (with
optional separators) of plausible payment-card length. -/
theorem C9_fake_value_shapes (seed : Nat) :
    emailShapeOk (generate_fake_data (fakerOfSeed seed) "email") = true
    ∧ cardShapeOk (generate_fake_data (fakerOfSeed seed) "credit_card") = true := by
  have h : seed % 3 = 0 ∨ seed % 3 = 1 ∨ seed % 3 = 2 := by omega
  rcases h with h | h | h <;>
    simp only [generate_fake_data, fakerOfSeed, pick3, h] <;> decide
